import Mathlib

/-!
Verification development for the SentimentAnalyzer repository.

Shallow embedding of the claim-relevant parts of
`src/models/sentiment_schema.py`, `src/chains/sentiment_chain.py`,
`src/chains/ticker_resolver.py` and `src/chains/news_fetcher.py`.

Modelling conventions:
- Python floats are modelled by rationals (`ℚ`).
- Python strings are Lean `String`s; Python string comparison (`<`, `<=`,
  used by `list.sort(key=...)`) is code-point lexicographic comparison,
  modelled by `lexCmp` on the underlying character lists.
- Python `datetime` values that the fetcher manipulates are all UTC-aware;
  a point in time is modelled as microseconds since the Unix epoch (`Int`),
  and the broken-down civil form used by `isoformat` is `PyDateTime`.
- External calls (Yahoo search, yfinance news, the LLM) are modelled by
  passing their results in as explicit arguments, and by result
  constructors that record which branch was taken.
-/

/- ---------------- Python string helpers ---------------- -/

/-- Whitespace characters removed by Python `str.strip()` / split by
`str.split()` (the ASCII whitespace set, which is all that arises here). -/
def isPySpace (c : Char) : Bool :=
  c = ' ' || c = '\t' || c = '\n' || c = '\r' || c = '\x0b' || c = '\x0c'

/-- Strip leading and trailing whitespace from a character list. -/
def pstripChars (l : List Char) : List Char :=
  ((l.dropWhile isPySpace).reverse.dropWhile isPySpace).reverse

/-- Python `str.strip()` with no arguments. -/
def pstrip (s : String) : String :=
  String.mk (pstripChars s.data)

/-- ASCII lowercasing of one character, as Python `str.lower()` does on the
ASCII range (the only range that survives the `[^a-z0-9]+` substitution in
`_norm`). -/
def asciiLowerChar (c : Char) : Char :=
  if 'A' ≤ c ∧ c ≤ 'Z' then Char.ofNat (c.toNat + 32) else c

/-- ASCII uppercasing of one character, as Python `str.upper()` does on the
ASCII range. -/
def asciiUpperChar (c : Char) : Char :=
  if 'a' ≤ c ∧ c ≤ 'z' then Char.ofNat (c.toNat - 32) else c

/-- Python `str.upper()` (ASCII range). -/
def asciiUpper (s : String) : String :=
  String.mk (s.data.map asciiUpperChar)

/-- Does the character match `[a-z0-9]` (the class kept by `_norm`)? -/
def isLowerAlnum (c : Char) : Bool :=
  ('a' ≤ c && c ≤ 'z') || ('0' ≤ c && c ≤ '9')

/-- Replace every maximal run of characters outside `[a-z0-9]` by a single
space, as `re.sub(r"[^a-z0-9]+", " ", s)` does. -/
def collapseNonAlnum : List Char → List Char
  | [] => []
  | [c] => if isLowerAlnum c then [c] else [' ']
  | c :: d :: rest =>
    if isLowerAlnum c then c :: collapseNonAlnum (d :: rest)
    else if isLowerAlnum d then ' ' :: collapseNonAlnum (d :: rest)
    else collapseNonAlnum (d :: rest)

/-- `ticker_resolver._norm`: lowercase, collapse non-alphanumeric runs to
single spaces, strip.  (`s or ""` maps Python `None` to `""`; the model's
input is always a string.) -/
def _norm (s : String) : String :=
  String.mk (pstripChars (collapseNonAlnum (s.data.map asciiLowerChar)))

/-- Accumulator-style worker for Python `str.split()` with no arguments:
split on whitespace runs, dropping empty tokens.  The accumulator holds the
current word reversed. -/
def wordsAux : List Char → List Char → List (List Char)
  | [], acc => if acc.isEmpty then [] else [acc.reverse]
  | c :: rest, acc =>
    if isPySpace c then
      if acc.isEmpty then wordsAux rest [] else acc.reverse :: wordsAux rest []
    else wordsAux rest (c :: acc)

/-- Python `str.split()` with no arguments. -/
def pysplit (s : String) : List String :=
  (wordsAux s.data []).map String.mk

/-- Is the first list a prefix of the second (character lists)? -/
def isPrefixChars : List Char → List Char → Bool
  | [], _ => true
  | _ :: _, [] => false
  | a :: as, b :: bs => a = b && isPrefixChars as bs

/-- Is the first list a contiguous sublist of the second?  Models Python
`tok in s` on strings (note `"" in s` is `True`). -/
def isSubstrChars (t : List Char) : List Char → Bool
  | [] => isPrefixChars t []
  | l@(_ :: rest) => isPrefixChars t l || isSubstrChars t rest

/-- Python substring test `t in s`. -/
def isSubstr (t s : String) : Bool :=
  isSubstrChars t.data s.data

/-- Code-point lexicographic three-way comparison of character lists; this
is exactly how CPython compares two `str` values. -/
def lexCmp : List Char → List Char → Ordering
  | [], [] => .eq
  | [], _ :: _ => .lt
  | _ :: _, [] => .gt
  | a :: as, b :: bs => (compare a.toNat b.toNat).then (lexCmp as bs)

/-- Python `s < t` on strings. -/
def pyStrLt (s t : String) : Bool :=
  match lexCmp s.data t.data with
  | .lt => true
  | _ => false

/-- Python `s <= t` on strings. -/
def pyStrLe (s t : String) : Bool :=
  match lexCmp s.data t.data with
  | .gt => false
  | _ => true

/- ---------------- Python datetime model ---------------- -/

/-- Broken-down civil form of a UTC-aware Python `datetime`.  The `datetime`
type's own invariant is captured by `PyDateTime.Valid` below. -/
structure PyDateTime where
  year : Nat
  month : Nat
  day : Nat
  hour : Nat
  minute : Nat
  second : Nat
  microsecond : Nat
deriving DecidableEq, Repr

/-- The range invariant every Python `datetime` object satisfies
(`MINYEAR = 1`, `MAXYEAR = 9999`; construction outside these ranges raises,
so the fetcher's parse helpers return `None` for such inputs). -/
def PyDateTime.Valid (t : PyDateTime) : Prop :=
  1 ≤ t.year ∧ t.year ≤ 9999 ∧ 1 ≤ t.month ∧ t.month ≤ 12 ∧
  1 ≤ t.day ∧ t.day ≤ 31 ∧ t.hour ≤ 23 ∧ t.minute ≤ 59 ∧
  t.second ≤ 59 ∧ t.microsecond ≤ 999999

instance (t : PyDateTime) : Decidable t.Valid := by
  unfold PyDateTime.Valid; infer_instance

/-- The decimal digit character for `d` (used with `d < 10`). -/
def digitChar (d : Nat) : Char :=
  Char.ofNat (48 + d)

/-- Zero-padded fixed-width decimal rendering, most significant digit
first: `padNum n x` is the last `n` digits of `x`, zero-padded (for
`x < 10 ^ n` this is `x` printed to width `n`, as `%0nd` does). -/
def padNum : Nat → Nat → List Char
  | 0, _ => []
  | n + 1, x => padNum n (x / 10) ++ [digitChar (x % 10)]

/-- The fractional-seconds part of `datetime.isoformat()`: empty when the
microsecond field is zero, otherwise a dot followed by six zero-padded
digits. -/
def fracChars (us : Nat) : List Char :=
  if us = 0 then [] else '.' :: padNum 6 us

/-- The UTC offset suffix `+00:00` that `isoformat()` appends to a
UTC-aware datetime. -/
def tzChars : List Char :=
  ['+', '0', '0', ':', '0', '0']

/-- Character list of `dt.isoformat()` for a UTC-aware datetime:
`YYYY-MM-DDTHH:MM:SS[.ffffff]+00:00`. -/
def isoChars (t : PyDateTime) : List Char :=
  padNum 4 t.year ++ '-' :: padNum 2 t.month ++ '-' :: padNum 2 t.day ++
  'T' :: padNum 2 t.hour ++ ':' :: padNum 2 t.minute ++
  ':' :: padNum 2 t.second ++ (fracChars t.microsecond ++ tzChars)

/-- `dt.astimezone(timezone.utc).isoformat()` for an already-UTC datetime. -/
def pyIsoformat (t : PyDateTime) : String :=
  String.mk (isoChars t)

/-- Three-way chronological comparison of two UTC datetimes, which Python
realises as lexicographic comparison of the broken-down fields. -/
def dtCmp (a b : PyDateTime) : Ordering :=
  (compare a.year b.year).then ((compare a.month b.month).then
    ((compare a.day b.day).then ((compare a.hour b.hour).then
      ((compare a.minute b.minute).then ((compare a.second b.second).then
        (compare a.microsecond b.microsecond))))))

/-- Chronological strict order on UTC datetimes (Python `dt1 < dt2`). -/
def dtLt (a b : PyDateTime) : Prop :=
  dtCmp a b = .lt

instance (a b : PyDateTime) : Decidable (dtLt a b) := by
  unfold dtLt; infer_instance

/-- Microseconds in one day: `timedelta(days=1)` on the microsecond
timeline. -/
def usPerDay : Int := 86400000000

/-- Civil date from a day count relative to 1970-01-01 (the standard
era-based algorithm underlying `datetime.fromtimestamp`).  Returns
`(year, month, day)`. -/
def civilFromDays (z0 : Int) : Nat × Nat × Nat :=
  let z := z0 + 719468
  let era := z.fdiv 146097
  let doe := (z - era * 146097).toNat
  let yoe := (doe - doe / 1460 + doe / 36524 - doe / 146096) / 365
  let doy := doe - (365 * yoe + yoe / 4 - yoe / 100)
  let mp := (5 * doy + 2) / 153
  let d := doy - (153 * mp + 2) / 5 + 1
  let m := if mp < 10 then mp + 3 else mp - 9
  let y := era * 400 + (yoe : Int) + (if m ≤ 2 then 1 else 0)
  (y.toNat, m, d)

/-- `datetime.fromtimestamp(·, tz=timezone.utc)` on the microsecond
timeline (for instants inside the `datetime` range; outside it Python
raises and the fetcher's parse helpers return `None`). -/
def fromtimestampUtc (t : Int) : PyDateTime :=
  let secs := t.fdiv 1000000
  let us := (t.emod 1000000).toNat
  let days := secs.fdiv 86400
  let sod := (secs.emod 86400).toNat
  let ymd := civilFromDays days
  ⟨ymd.1, ymd.2.1, ymd.2.2, sod / 3600, sod % 3600 / 60, sod % 60, us⟩

/- ---------------- sentiment_schema.py ---------------- -/

/-- The three admissible values of the `sentiment` field
(`Literal["Positive", "Negative", "Neutral"]`). -/
inductive Sentiment
  | Positive
  | Negative
  | Neutral
deriving DecidableEq, Repr

/-- The value handed to the `confidence_score` validator: either something
`float(v)` converts (modelled by its rational value) or something on which
`float(v)` raises. -/
inductive ConfInput
  | num (q : ℚ)
  | nonnum
deriving DecidableEq

/-- `SentimentResult._clamp_confidence`: `max(0.0, min(1.0, float(v)))`,
falling back to `0.5` when the conversion raises. -/
def _clamp_confidence : ConfInput → ℚ
  | .num v => max 0 (min 1 v)
  | .nonnum => 0.5

/-- The `SentimentResult` pydantic model's fields (floats as rationals). -/
structure SentimentResult where
  company_name : String
  stock_code : String
  newsdesc : String
  sentiment : Sentiment
  people_names : List String
  places_names : List String
  other_companies_referred : List String
  related_industries : List String
  market_implications : String
  confidence_score : ℚ
deriving DecidableEq, Repr

/-- Construction of a `SentimentResult` through the pydantic model: the
`_clamp_confidence` field validator runs on the supplied
`confidence_score` value. -/
def mkSentimentResult (company_name stock_code newsdesc : String)
    (sentiment : Sentiment)
    (people_names places_names other_companies_referred related_industries :
      List String)
    (market_implications : String) (confidence_score : ConfInput) :
    SentimentResult :=
  ⟨company_name, stock_code, newsdesc, sentiment, people_names, places_names,
   other_companies_referred, related_industries, market_implications,
   _clamp_confidence confidence_score⟩

/- ---------------- sentiment_chain.py ---------------- -/

/-- Outcome of `analyze_sentiment`: either the deterministic no-news
fallback result, or an invocation of the structured-output LLM on the
given company/ticker/digest (the branch that builds the prompt and calls
Gemini). -/
inductive AnalyzeResult
  | fallback (r : SentimentResult)
  | llm (company_name stock_code newsdesc : String)
deriving DecidableEq, Repr

/-- `sentiment_chain.analyze_sentiment`: when `newsdesc.strip()` is empty
return the fixed Neutral fallback without calling the LLM, otherwise
invoke the LLM (modelled by the `llm` constructor carrying the prompt
inputs). -/
def analyze_sentiment (company_name stock_code newsdesc : String) :
    AnalyzeResult :=
  if pstrip newsdesc = "" then
    .fallback (mkSentimentResult company_name stock_code
      "(no recent articles found)" .Neutral [] [] [] []
      "Insufficient recent coverage; no clear directional signal."
      (.num 0.2))
  else
    .llm company_name stock_code newsdesc

/- ---------------- ticker_resolver.py ---------------- -/

/-- `TickerCandidate` dataclass (provider score as a rational). -/
structure TickerCandidate where
  symbol : String
  shortname : String
  longname : Option String
  exchange : Option String
  score : ℚ
  typeDisp : Option String
  exchDisp : Option String
deriving DecidableEq, Repr

/-- The curated shortcut table, keyed by `_norm` of the literal company
names, exactly as in the source. -/
def CURATED : List (String × (String × String × String)) :=
  [ (_norm "Apple Inc", ("AAPL", "Apple Inc.", "NASDAQ")),
    (_norm "Alphabet Inc", ("GOOGL", "Alphabet Inc.", "NASDAQ")),
    (_norm "Microsoft Corporation", ("MSFT", "Microsoft Corporation", "NASDAQ")),
    (_norm "Amazon.com, Inc.", ("AMZN", "Amazon.com, Inc.", "NASDAQ")),
    (_norm "Tesla, Inc.", ("TSLA", "Tesla, Inc.", "NASDAQ")),
    (_norm "Meta Platforms, Inc.", ("META", "Meta Platforms, Inc.", "NASDAQ")),
    (_norm "NVIDIA Corporation", ("NVDA", "NVIDIA Corporation", "NASDAQ")),
    (_norm "Reliance Industries", ("RELIANCE.NS", "Reliance Industries Limited", "NSE")),
    (_norm "Tata Consultancy Services", ("TCS.NS", "Tata Consultancy Services Limited", "NSE")),
    (_norm "Infosys", ("INFY.NS", "Infosys Limited", "NSE")),
    (_norm "HDFC Bank", ("HDFCBANK.NS", "HDFC Bank Limited", "NSE")),
    (_norm "ICICI Bank", ("ICICIBANK.NS", "ICICI Bank Limited", "NSE")) ]

/-- Python `str(x)` on an optional string: `None` prints as `"None"`. -/
def pyStrOfOpt : Option String → String
  | none => "None"
  | some s => s

/-- `ticker_resolver._boost_score`: provider score, plus `1.5` when equity
types are preferred and `str(c.typeDisp).upper()` is one of
`{"EQUITY", "COMMON STOCK", "ETF"}`, plus `1.0` when every token of the
normalized target name occurs as a substring of the normalized combined
short/long name.  (`c.score or 0.0` is the identity on the rational
model.) -/
def _boost_score (c : TickerCandidate) (target_norm : String)
    (prefer_equity : Bool) : ℚ :=
  let score := c.score
  let score :=
    if prefer_equity &&
        (["EQUITY", "COMMON STOCK", "ETF"].contains
          (asciiUpper (pyStrOfOpt c.typeDisp))) then
      score + 1.5
    else score
  let combined := _norm (c.shortname ++ " " ++ (c.longname.getD ""))
  let score :=
    if (pysplit target_norm).all (fun tok => isSubstr tok combined) then
      score + 1.0
    else score
  score

/-- Worker for Python `max(candidates, key=f)`: fold keeping the current
best, replacing it only on a strictly larger key (so the earliest maximal
element wins, as in CPython). -/
def pymaxAux {α : Type} (f : α → ℚ) (best : α) : List α → α
  | [] => best
  | x :: xs => pymaxAux f (if f best < f x then x else best) xs

/-- Outcome of `resolve_ticker`, recording which branch produced it: the
curated table (no external call) or the Yahoo search fallback. -/
inductive Resolution
  | curated (c : TickerCandidate)
  | fromSearch (r : Option TickerCandidate)
deriving DecidableEq, Repr

/-- `ticker_resolver.resolve_ticker`.  The external `yahoo_suggest` call is
modelled by the `search` argument holding the candidates it would return;
the curated branch never inspects it. -/
def resolve_ticker (company_name : String) (prefer_equity : Bool)
    (search : List TickerCandidate) : Resolution :=
  match CURATED.lookup (_norm company_name) with
  | some (sym, nm, exch) =>
    .curated ⟨sym, nm, some nm, some exch, 1.0, some "EQUITY", some exch⟩
  | none =>
    match search with
    | [] => .fromSearch none
    | c :: rest =>
      .fromSearch
        (some (pymaxAux
          (fun x => _boost_score x (_norm company_name) prefer_equity) c rest))

/- ---------------- news_fetcher.py ---------------- -/

/-- The nested `content` object of a raw Yahoo news record.  Each field
holds the value the corresponding extractor reads: `pubDate` is the result
of `_parse_iso_to_dt` on the raw ISO string (microseconds since epoch;
`none` when the field is absent, null, or unparseable), and the URL
fields hold `(content.get(...) or {}).get("url")`. -/
structure RawContent where
  title : Option String
  pubDate : Option Int
  canonicalUrl : Option String
  clickThroughUrl : Option String
  provider : Option String
deriving DecidableEq, Repr

/-- A raw news record.  The two epoch fields hold the result of
`_parse_epoch_to_dt` on the raw value (microseconds since epoch; `none`
when the field is absent, null, or fails `int(float(v))`). -/
structure RawRecord where
  title : Option String
  link : Option String
  publisher : Option String
  providerPublishTime : Option Int
  timePublished : Option Int
  content : Option RawContent
  relatedTickers : Option (List String)
deriving DecidableEq, Repr

/-- Python `n.get("content") or {}`: a missing content object behaves as
one whose every field is absent. -/
def contentD (n : RawRecord) : RawContent :=
  n.content.getD ⟨none, none, none, none, none⟩

/-- The `NewsItem` dataclass. -/
structure NewsItem where
  title : String
  link : String
  publisher : Option String
  published_at : String
  related_tickers : List String
deriving DecidableEq, Repr

/-- `news_fetcher._to_iso`: `dt.astimezone(timezone.utc).isoformat()` when
a datetime is present, else `None`. -/
def _to_iso (dt : Option Int) : Option String :=
  dt.map (fun d => pyIsoformat (fromtimestampUtc d))

/-- `news_fetcher._extract_published_dt`: try `providerPublishTime`, then
`content.pubDate`, then `timePublished`; the first parse that yields a
datetime wins. -/
def _extract_published_dt (n : RawRecord) : Option Int :=
  match n.providerPublishTime with
  | some dt => some dt
  | none =>
    match (contentD n).pubDate with
    | some dt => some dt
    | none => n.timePublished

/-- `news_fetcher._within_lookback`: false when no datetime was extracted,
else `dt >= now - timedelta(days=lookback_days)`.  The source reads the
wall clock inside the function; the model passes `now` explicitly. -/
def _within_lookback (dt : Option Int) (lookback_days : Int) (now : Int) :
    Bool :=
  match dt with
  | none => false
  | some d => now - lookback_days * usPerDay ≤ d

/-- `news_fetcher._extract_link`: top-level `link`, then
`content.canonicalUrl.url`, then `content.clickThroughUrl.url`, else `""`;
Python truthiness makes an empty string fall through. -/
def _extract_link (n : RawRecord) : String :=
  let link := n.link.getD ""
  if link ≠ "" then link
  else
    let canon := (contentD n).canonicalUrl.getD ""
    if canon ≠ "" then canon
    else
      let click := (contentD n).clickThroughUrl.getD ""
      if click ≠ "" then click
      else ""

/-- `news_fetcher._extract_publisher`: top-level `publisher` when truthy,
else `content.provider.displayName`. -/
def _extract_publisher (n : RawRecord) : Option String :=
  match n.publisher with
  | some p => if p ≠ "" then some p else (contentD n).provider
  | none => (contentD n).provider

/-- Title extraction in the `fetch_recent_news` loop body:
`(n.get("title") or n.get("content", {}).get("title") or "").strip()`. -/
def rawTitle (n : RawRecord) : String :=
  let t1 := n.title.getD ""
  if t1 ≠ "" then pstrip t1
  else pstrip ((contentD n).title.getD "")

/-- One iteration of the `fetch_recent_news` loop: extract the fields,
skip the record when title or link is empty or the timestamp is missing or
out of the lookback window, otherwise build the `NewsItem`. -/
def processRecord (now lookback_days : Int) (n : RawRecord) :
    Option NewsItem :=
  let title := rawTitle n
  let link := _extract_link n
  let publisher := _extract_publisher n
  let dt := _extract_published_dt n
  let ts_iso := _to_iso dt
  let related := n.relatedTickers.getD []
  if title = "" || link = "" then none
  else if !_within_lookback dt lookback_days now then none
  else some ⟨title, link, publisher, ts_iso.getD "", related⟩

/-- `news_fetcher.fetch_recent_news` on the already-retrieved raw records:
keep the surviving records, sort newest first by the `published_at` string
(`items.sort(key=lambda x: x.published_at, reverse=True)`, a stable sort),
and truncate to `max(0, top_k)`. -/
def fetch_recent_news (raw_news : List RawRecord)
    (now lookback_days top_k : Int) : List NewsItem :=
  let items := raw_news.filterMap (processRecord now lookback_days)
  (items.mergeSort (fun a b => pyStrLe b.published_at a.published_at)).take
    (max 0 top_k).toNat

/- ---------------- Helper lemmas ---------------- -/

theorem ordThen_eq (o : Ordering) : o.then .eq = o := by
  cases o <;> rfl

theorem ordEq_then (o : Ordering) : Ordering.eq.then o = o := rfl

theorem ordThen_assoc (a b c : Ordering) :
    (a.then b).then c = a.then (b.then c) := by
  cases a <;> rfl

/- ---------------- C1 ---------------- -/

/-- C1: every `SentimentResult` built through the pydantic model has its
`confidence_score` in `[0, 1]`: numeric values above `1` are clamped to
`1`, numeric values below `0` are clamped to `0`, and a value `float`
cannot convert falls back to `0.5`. -/
theorem confidence_score_clamped (cn sc nd : String) (st : Sentiment)
    (pn pl oc ri : List String) (mi : String) (v : ConfInput) :
    (0 ≤ (mkSentimentResult cn sc nd st pn pl oc ri mi v).confidence_score ∧
      (mkSentimentResult cn sc nd st pn pl oc ri mi v).confidence_score ≤ 1) ∧
    (∀ q : ℚ, v = .num q → 1 < q →
      (mkSentimentResult cn sc nd st pn pl oc ri mi v).confidence_score = 1) ∧
    (∀ q : ℚ, v = .num q → q < 0 →
      (mkSentimentResult cn sc nd st pn pl oc ri mi v).confidence_score = 0) ∧
    (v = .nonnum →
      (mkSentimentResult cn sc nd st pn pl oc ri mi v).confidence_score = 0.5) := by
  have hr : (mkSentimentResult cn sc nd st pn pl oc ri mi v).confidence_score =
      _clamp_confidence v := rfl
  refine ⟨?_, ?_, ?_, ?_⟩
  · rw [hr]
    cases v with
    | num q =>
      simp only [_clamp_confidence]
      exact ⟨le_max_left 0 _, max_le (by norm_num) (min_le_left 1 q)⟩
    | nonnum =>
      simp only [_clamp_confidence]
      norm_num
  · intro q hv hq
    subst hv
    rw [hr]
    simp only [_clamp_confidence]
    rw [min_eq_left hq.le, max_eq_right zero_le_one]
  · intro q hv hq
    subst hv
    rw [hr]
    simp only [_clamp_confidence]
    rw [min_eq_right (hq.le.trans zero_le_one), max_eq_left hq.le]
  · intro hv
    subst hv
    rw [hr]
    rfl

/-- Witness for C1 at concrete inputs: an upstream value of `7` is clamped
to `1` and lies in range. -/
theorem confidence_score_clamped_witness :
    (0 ≤ (mkSentimentResult "a" "b" "c" .Neutral [] [] [] [] "d"
        (.num 7)).confidence_score ∧
      (mkSentimentResult "a" "b" "c" .Neutral [] [] [] [] "d"
        (.num 7)).confidence_score ≤ 1) ∧
    (mkSentimentResult "a" "b" "c" .Neutral [] [] [] [] "d"
      (.num 7)).confidence_score = 1 :=
  ⟨(confidence_score_clamped "a" "b" "c" .Neutral [] [] [] [] "d" (.num 7)).1,
    (confidence_score_clamped "a" "b" "c" .Neutral [] [] [] [] "d"
      (.num 7)).2.1 7 rfl (by norm_num)⟩

/- ---------------- C4 ---------------- -/

/-- C4: when the news digest is empty or whitespace-only,
`analyze_sentiment` returns the fixed fallback — sentiment `Neutral`,
confidence `0.2`, the canned market-implications sentence — and takes the
`fallback` branch, which performs no LLM invocation. -/
theorem analyze_sentiment_empty_digest (company stock newsdesc : String)
    (h : pstrip newsdesc = "") :
    analyze_sentiment company stock newsdesc =
      .fallback ⟨company, stock, "(no recent articles found)", .Neutral,
        [], [], [], [],
        "Insufficient recent coverage; no clear directional signal.", 0.2⟩ := by
  unfold analyze_sentiment
  rw [if_pos h]
  have hc : _clamp_confidence (.num 0.2) = 0.2 := by
    simp only [_clamp_confidence]
    norm_num
  unfold mkSentimentResult
  rw [hc]

/-- Witness for C4: a whitespace-only digest yields the fixed Neutral
fallback. -/
theorem analyze_sentiment_empty_digest_witness :
    analyze_sentiment "ACME" "ACM" " \t " =
      .fallback ⟨"ACME", "ACM", "(no recent articles found)", .Neutral,
        [], [], [], [],
        "Insufficient recent coverage; no clear directional signal.", 0.2⟩ :=
  analyze_sentiment_empty_digest "ACME" "ACM" " \t " (by decide)

/- ---------------- C5 ---------------- -/

/-- C5: whenever the normalized company name is a key of the curated
table, `resolve_ticker` returns the mapped symbol with score `1.0` and
`typeDisp "EQUITY"` through the `curated` branch, whatever the external
search would have returned (no external call is made). -/
theorem resolve_ticker_curated (name : String) (pe : Bool)
    (search : List TickerCandidate) (sym nm exch : String)
    (h : CURATED.lookup (_norm name) = some (sym, nm, exch)) :
    resolve_ticker name pe search =
      .curated ⟨sym, nm, some nm, some exch, 1.0, some "EQUITY", some exch⟩ := by
  unfold resolve_ticker
  rw [h]

/-- Witness for C5: "Apple Inc" resolves to AAPL from the curated table. -/
theorem resolve_ticker_curated_witness :
    resolve_ticker "Apple Inc" true [] =
      .curated ⟨"AAPL", "Apple Inc.", some "Apple Inc.", some "NASDAQ", 1.0,
        some "EQUITY", some "NASDAQ"⟩ :=
  resolve_ticker_curated "Apple Inc" true [] "AAPL" "Apple Inc." "NASDAQ"
    (by decide)

/- ---------------- C10 ---------------- -/

/-- C10: when the normalized company name is empty (no alphanumeric
characters), the token-containment test in `_boost_score` quantifies over
zero tokens and is vacuously true, so every candidate receives the `+1.0`
containment boost and the boosted score is exactly the provider score plus
the instrument-type boost plus `1.0`. -/
theorem boost_score_empty_norm (name : String) (h : _norm name = "")
    (c : TickerCandidate) (pe : Bool) :
    _boost_score c (_norm name) pe =
      (if pe && (["EQUITY", "COMMON STOCK", "ETF"].contains
          (asciiUpper (pyStrOfOpt c.typeDisp))) then
        c.score + 1.5
      else c.score) + 1.0 := by
  rw [h]
  unfold _boost_score
  have hsplit : pysplit "" = [] := rfl
  rw [hsplit]
  simp only [List.all_nil, if_true]

/-- Witness for C10: a name with no alphanumeric characters normalizes to
the empty string and the containment boost is granted unconditionally. -/
theorem boost_score_empty_norm_witness :
    _boost_score ⟨"XYZ", "Some Fund", none, none, 2, some "Index", none⟩
        (_norm "&&&") true =
      (if true && (["EQUITY", "COMMON STOCK", "ETF"].contains
          (asciiUpper (pyStrOfOpt (some "Index")))) then
        (2 : ℚ) + 1.5
      else 2) + 1.0 :=
  boost_score_empty_norm "&&&" (by decide)
    ⟨"XYZ", "Some Fund", none, none, 2, some "Index", none⟩ true

/- ---------------- C8 ---------------- -/

/-- C8: field extraction follows a fixed-priority fallback chain where the
first source yielding a value wins.  The published timestamp takes
`providerPublishTime` when it parses, else `content.pubDate`, else
`timePublished`.  The link takes the top-level `link` when truthy
(non-empty) — in particular a record carrying both a top-level link and a
nested canonical URL yields the top-level link — else
`content.canonicalUrl.url` when truthy, else `content.clickThroughUrl.url`
when truthy, else `""` (a missing field and an empty string are both
falsy). -/
theorem extraction_priority (n : RawRecord) :
    (∀ t : Int, n.providerPublishTime = some t →
      _extract_published_dt n = some t) ∧
    (n.providerPublishTime = none → ∀ t : Int,
      (contentD n).pubDate = some t → _extract_published_dt n = some t) ∧
    (n.providerPublishTime = none → (contentD n).pubDate = none →
      _extract_published_dt n = n.timePublished) ∧
    (∀ l : String, n.link = some l → l ≠ "" → _extract_link n = l) ∧
    (n.link.getD "" = "" → ∀ c : String,
      (contentD n).canonicalUrl = some c → c ≠ "" → _extract_link n = c) ∧
    (n.link.getD "" = "" → (contentD n).canonicalUrl.getD "" = "" →
      ∀ c : String, (contentD n).clickThroughUrl = some c → c ≠ "" →
        _extract_link n = c) ∧
    (n.link.getD "" = "" → (contentD n).canonicalUrl.getD "" = "" →
      (contentD n).clickThroughUrl.getD "" = "" → _extract_link n = "") := by
  refine ⟨?_, ?_, ?_, ?_, ?_, ?_, ?_⟩
  · intro t ht
    unfold _extract_published_dt
    rw [ht]
  · intro hp t ht
    unfold _extract_published_dt
    rw [hp, ht]
  · intro hp hc
    unfold _extract_published_dt
    rw [hp, hc]
  · intro l hl hne
    unfold _extract_link
    rw [hl]
    simp only [Option.getD_some]
    rw [if_pos hne]
  · intro hl c hc hne
    unfold _extract_link
    rw [hl, hc]
    simp only [Option.getD_some, ne_eq, not_true_eq_false, if_false]
    rw [if_pos hne]
  · intro hl hcanon c hc hne
    unfold _extract_link
    rw [hl, hcanon, hc]
    simp only [Option.getD_some, ne_eq, not_true_eq_false, if_false]
    rw [if_pos hne]
  · intro hl hcanon hclick
    unfold _extract_link
    rw [hl, hcanon, hclick]
    simp

/-- Witness for C8: a first record with `providerPublishTime`, a nested
`pubDate`, a top-level link and a nested canonical URL takes the epoch
field for the timestamp and the top-level link; a second record whose
top-level link is the (falsy) empty string falls back to the nested
canonical URL. -/
theorem extraction_priority_witness :
    _extract_published_dt
        ⟨some "t", some "http://a", none, some 5, some 9,
          some ⟨none, some 7, some "http://b", none, none⟩, none⟩ = some 5 ∧
    _extract_link
        ⟨some "t", some "http://a", none, some 5, some 9,
          some ⟨none, some 7, some "http://b", none, none⟩, none⟩ =
      "http://a" ∧
    _extract_link
        ⟨some "t", some "", none, none, none,
          some ⟨none, none, some "http://b", some "http://c", none⟩, none⟩ =
      "http://b" :=
  ⟨(extraction_priority _).1 5 rfl,
    (extraction_priority _).2.2.2.1 "http://a" rfl (by decide),
    (extraction_priority _).2.2.2.2.1 (by decide) "http://b" rfl (by decide)⟩

/- ---------------- C3 ---------------- -/

set_option linter.unnecessarySeqFocus false in
/-- C3: the per-record filter of `fetch_recent_news` drops a raw record
exactly when the extracted title is empty, the extracted link is empty,
the timestamp is missing, or the timestamp is strictly older than
`now − lookback_days`; a record whose timestamp equals the cutoff exactly
is kept (the test is `dt >= cutoff`). -/
theorem record_filter_exact (now lookback : Int) (n : RawRecord) :
    (processRecord now lookback n = none ↔
      rawTitle n = "" ∨ _extract_link n = "" ∨
      _extract_published_dt n = none ∨
      (∃ d : Int, _extract_published_dt n = some d ∧
        d < now - lookback * usPerDay)) ∧
    (∀ d : Int, _extract_published_dt n = some d →
      now - lookback * usPerDay ≤ d → rawTitle n ≠ "" →
      _extract_link n ≠ "" → (processRecord now lookback n).isSome = true) := by
  constructor
  · rcases hdt : _extract_published_dt n with _ | d
    · by_cases ht : rawTitle n = "" <;> by_cases hl : _extract_link n = "" <;>
        simp [processRecord, _within_lookback, hdt, ht, hl]
    · by_cases ht : rawTitle n = "" <;> by_cases hl : _extract_link n = "" <;>
        by_cases hcut : now - lookback * usPerDay ≤ d <;>
        simp [processRecord, _within_lookback, hdt, ht, hl, hcut] <;> omega
  · intro d hd hcut ht hl
    simp [processRecord, _within_lookback, hd, ht, hl, hcut]

/-- Witness for C3: a record whose timestamp equals the cutoff exactly is
kept. -/
theorem record_filter_exact_witness :
    (processRecord 86400000000 1
      ⟨some "t", some "l", none, some 0, none, none, none⟩).isSome = true :=
  (record_filter_exact 86400000000 1
      ⟨some "t", some "l", none, some 0, none, none, none⟩).2 0 rfl
    (by norm_num [usPerDay]) (by decide) (by decide)

/- ---------------- C6 ---------------- -/

/-- The element `max(..., key=f)` picks is the start element or a list
element. -/
theorem pymaxAux_mem {α : Type} (f : α → ℚ) (b : α) (l : List α) :
    pymaxAux f b l = b ∨ pymaxAux f b l ∈ l := by
  induction l generalizing b with
  | nil => exact Or.inl rfl
  | cons x xs ih =>
    simp only [pymaxAux]
    rcases ih (if f b < f x then x else b) with h | h
    · rw [h]
      by_cases hc : f b < f x
      · rw [if_pos hc]
        exact Or.inr (List.mem_cons_self x xs)
      · rw [if_neg hc]
        exact Or.inl rfl
    · exact Or.inr (List.mem_cons_of_mem x h)

/-- The element `max(..., key=f)` picks has a maximal key among the start
element and the list elements. -/
theorem pymaxAux_le {α : Type} (f : α → ℚ) (b : α) (l : List α) :
    f b ≤ f (pymaxAux f b l) ∧ ∀ x ∈ l, f x ≤ f (pymaxAux f b l) := by
  induction l generalizing b with
  | nil => exact ⟨le_refl _, by simp⟩
  | cons x xs ih =>
    obtain ⟨h1, h2⟩ := ih (if f b < f x then x else b)
    have hb : f b ≤ f (if f b < f x then x else b) := by
      by_cases hc : f b < f x
      · rw [if_pos hc]
        exact hc.le
      · rw [if_neg hc]
    have hx : f x ≤ f (if f b < f x then x else b) := by
      by_cases hc : f b < f x
      · rw [if_pos hc]
      · rw [if_neg hc]
        exact le_of_not_lt hc
    refine ⟨hb.trans h1, ?_⟩
    intro y hy
    rcases List.mem_cons.mp hy with rfl | hy
    · exact hx.trans h1
    · exact h2 y hy

/-- C6: for a company name outside the curated table, `resolve_ticker`
returns `none` exactly when the external search yields zero candidates,
and otherwise returns a search candidate whose `_boost_score` (provider
score, `+1.5` for preferred instrument types, `+1.0` for full token
containment) is maximal among the candidates. -/
theorem resolve_ticker_search (name : String) (pe : Bool)
    (hcur : CURATED.lookup (_norm name) = none) :
    (∀ search : List TickerCandidate,
      (resolve_ticker name pe search = .fromSearch none ↔ search = [])) ∧
    (∀ (c : TickerCandidate) (cs : List TickerCandidate),
      ∃ b : TickerCandidate,
        resolve_ticker name pe (c :: cs) = .fromSearch (some b) ∧
        b ∈ c :: cs ∧
        ∀ x ∈ c :: cs,
          _boost_score x (_norm name) pe ≤ _boost_score b (_norm name) pe) := by
  constructor
  · intro search
    unfold resolve_ticker
    rw [hcur]
    cases search with
    | nil => simp
    | cons c cs => simp
  · intro c cs
    refine ⟨pymaxAux (fun x => _boost_score x (_norm name) pe) c cs, ?_, ?_, ?_⟩
    · unfold resolve_ticker
      rw [hcur]
    · rcases pymaxAux_mem (fun x => _boost_score x (_norm name) pe) c cs with
        h | h
      · rw [h]
        exact List.mem_cons_self c cs
      · exact List.mem_cons_of_mem c h
    · intro x hx
      obtain ⟨h1, h2⟩ := pymaxAux_le (fun x => _boost_score x (_norm name) pe) c cs
      rcases List.mem_cons.mp hx with rfl | hx
      · exact h1
      · exact h2 x hx

/-- Witness for C6: a name outside the curated table with an empty search
result resolves to `none`. -/
theorem resolve_ticker_search_witness :
    resolve_ticker "Zebra Widgets" true [] = .fromSearch none ↔
      ([] : List TickerCandidate) = [] :=
  (resolve_ticker_search "Zebra Widgets" true (by decide)).1 []

/- ---------------- C2 ---------------- -/

theorem padNum_length (n x : Nat) : (padNum n x).length = n := by
  induction n generalizing x with
  | zero => rfl
  | succ n ih => simp [padNum, ih]

theorem lexCmp_append (as bs cs ds : List Char) (h : as.length = bs.length) :
    lexCmp (as ++ cs) (bs ++ ds) = (lexCmp as bs).then (lexCmp cs ds) := by
  induction as generalizing bs with
  | nil =>
    cases bs with
    | nil => rfl
    | cons y ys => simp at h
  | cons x xs ih =>
    cases bs with
    | nil => simp at h
    | cons y ys =>
      simp only [List.cons_append, lexCmp, List.append_eq]
      rw [ih ys (by simpa using h), ordThen_assoc]

theorem lexCmp_self (l : List Char) : lexCmp l l = .eq := by
  induction l with
  | nil => rfl
  | cons x xs ih =>
    simp only [lexCmp, ih]
    rw [Nat.compare_eq_eq.mpr rfl]
    rfl

theorem digitChar_cmp :
    ∀ d < 10, ∀ e < 10,
      compare (digitChar d).toNat (digitChar e).toNat = compare d e := by
  decide

theorem divmod_cmp (x y : Nat) :
    (compare (x / 10) (y / 10)).then (compare (x % 10) (y % 10)) =
      compare x y := by
  rcases Nat.lt_trichotomy (x / 10) (y / 10) with h | h | h
  · rw [Nat.compare_eq_lt.mpr h, Nat.compare_eq_lt.mpr (show x < y by omega)]
    rfl
  · rw [Nat.compare_eq_eq.mpr h, ordEq_then]
    rcases Nat.lt_trichotomy (x % 10) (y % 10) with h2 | h2 | h2
    · rw [Nat.compare_eq_lt.mpr h2, Nat.compare_eq_lt.mpr (show x < y by omega)]
    · rw [Nat.compare_eq_eq.mpr h2, Nat.compare_eq_eq.mpr (show x = y by omega)]
    · rw [Nat.compare_eq_gt.mpr h2, Nat.compare_eq_gt.mpr (show y < x by omega)]
  · rw [Nat.compare_eq_gt.mpr h, Nat.compare_eq_gt.mpr (show y < x by omega)]
    rfl

theorem padNum_cmp (n x y : Nat) (hx : x < 10 ^ n) (hy : y < 10 ^ n) :
    lexCmp (padNum n x) (padNum n y) = compare x y := by
  induction n generalizing x y with
  | zero =>
    have hx0 : x = 0 := by simpa using hx
    have hy0 : y = 0 := by simpa using hy
    subst hx0
    subst hy0
    rfl
  | succ n ih =>
    simp only [padNum]
    rw [lexCmp_append _ _ _ _ (by rw [padNum_length, padNum_length])]
    rw [pow_succ] at hx hy
    rw [ih (x / 10) (y / 10) (Nat.div_lt_iff_lt_mul (by norm_num) |>.mpr hx)
      (Nat.div_lt_iff_lt_mul (by norm_num) |>.mpr hy)]
    have h1 : lexCmp [digitChar (x % 10)] [digitChar (y % 10)] =
        compare (x % 10) (y % 10) := by
      simp only [lexCmp]
      rw [digitChar_cmp (x % 10) (by omega) (y % 10) (by omega), ordThen_eq]
    rw [h1, divmod_cmp]

theorem cmp_block (n x y : Nat) (c : Char) (r1 r2 : List Char)
    (hx : x < 10 ^ n) (hy : y < 10 ^ n) :
    lexCmp (padNum n x ++ c :: r1) (padNum n y ++ c :: r2) =
      (compare x y).then (lexCmp r1 r2) := by
  rw [lexCmp_append _ _ _ _ (by rw [padNum_length, padNum_length])]
  rw [padNum_cmp n x y hx hy]
  congr 1
  simp only [lexCmp]
  rw [Nat.compare_eq_eq.mpr rfl, ordEq_then]

theorem lexCmp_cons (a b : Char) (r1 r2 : List Char) :
    lexCmp (a :: r1) (b :: r2) = (compare a.toNat b.toNat).then (lexCmp r1 r2) :=
  rfl

theorem fracTz_cmp (u v : Nat) (hu : u < 10 ^ 6) (hv : v < 10 ^ 6) :
    lexCmp (fracChars u ++ tzChars) (fracChars v ++ tzChars) = compare u v := by
  unfold fracChars
  by_cases h1 : u = 0 <;> by_cases h2 : v = 0
  · subst h1
    subst h2
    rw [if_pos rfl, List.nil_append, lexCmp_self]
    rfl
  · subst h1
    rw [if_pos rfl, if_neg h2, List.nil_append]
    rw [show compare 0 v = Ordering.lt from
      Nat.compare_eq_lt.mpr (Nat.pos_of_ne_zero h2)]
    rfl
  · subst h2
    rw [if_pos rfl, if_neg h1, List.nil_append]
    rw [show compare u 0 = Ordering.gt from
      Nat.compare_eq_gt.mpr (Nat.pos_of_ne_zero h1)]
    rfl
  · rw [if_neg h1, if_neg h2, List.cons_append, List.cons_append, lexCmp_cons]
    rw [show compare ('.').toNat ('.').toNat = Ordering.eq from rfl, ordEq_then]
    rw [lexCmp_append _ _ _ _ (by rw [padNum_length, padNum_length])]
    rw [padNum_cmp 6 u v hu hv, lexCmp_self, ordThen_eq]

theorem cmp_last (x y u v : Nat) (hx : x < 10 ^ 2) (hy : y < 10 ^ 2)
    (hu : u < 10 ^ 6) (hv : v < 10 ^ 6) :
    lexCmp (padNum 2 x ++ (fracChars u ++ tzChars))
        (padNum 2 y ++ (fracChars v ++ tzChars)) =
      (compare x y).then (compare u v) := by
  rw [lexCmp_append _ _ _ _ (by rw [padNum_length, padNum_length])]
  rw [padNum_cmp 2 x y hx hy, fracTz_cmp u v hu hv]

theorem isoChars_cmp (a b : PyDateTime) (ha : a.Valid) (hb : b.Valid) :
    lexCmp (isoChars a) (isoChars b) = dtCmp a b := by
  obtain ⟨hy1, hy2, hmo1, hmo2, hd1, hd2, hh, hmi, hs, hus⟩ := ha
  obtain ⟨gy1, gy2, gmo1, gmo2, gd1, gd2, gh, gmi, gs, gus⟩ := hb
  unfold isoChars dtCmp
  simp only [List.append_assoc, List.cons_append]
  rw [cmp_block 4 a.year b.year '-' _ _ (by norm_num; omega) (by norm_num; omega)]
  rw [cmp_block 2 a.month b.month '-' _ _ (by norm_num; omega) (by norm_num; omega)]
  rw [cmp_block 2 a.day b.day 'T' _ _ (by norm_num; omega) (by norm_num; omega)]
  rw [cmp_block 2 a.hour b.hour ':' _ _ (by norm_num; omega) (by norm_num; omega)]
  rw [cmp_block 2 a.minute b.minute ':' _ _ (by norm_num; omega) (by norm_num; omega)]
  rw [cmp_last a.second b.second a.microsecond b.microsecond
    (by norm_num; omega) (by norm_num; omega) (by norm_num; omega)
    (by norm_num; omega)]

/-- C2: for any two (valid) datetimes produced by the fetcher's timestamp
normalization, code-point lexicographic comparison of their
`isoformat` strings agrees exactly with chronological comparison of the
datetimes, so sorting descending by the `published_at` string is
newest-first chronological order. -/
theorem iso_lex_agrees_chronological (a b : PyDateTime)
    (ha : a.Valid) (hb : b.Valid) :
    pyStrLt (pyIsoformat a) (pyIsoformat b) = true ↔ dtLt a b := by
  unfold pyStrLt dtLt
  have hd : (pyIsoformat a).data = isoChars a := rfl
  have hd2 : (pyIsoformat b).data = isoChars b := rfl
  rw [hd, hd2, isoChars_cmp a b ha hb]
  cases h : dtCmp a b <;> simp

/-- Witness for C2 at two concrete datetimes that differ only in the
microsecond field (the one whose ISO rendering is not fixed-width). -/
theorem iso_lex_agrees_chronological_witness :
    (pyStrLt (pyIsoformat ⟨2024, 5, 17, 10, 3, 4, 0⟩)
        (pyIsoformat ⟨2024, 5, 17, 10, 3, 4, 500000⟩) = true ↔
      dtLt ⟨2024, 5, 17, 10, 3, 4, 0⟩ ⟨2024, 5, 17, 10, 3, 4, 500000⟩) :=
  iso_lex_agrees_chronological ⟨2024, 5, 17, 10, 3, 4, 0⟩
    ⟨2024, 5, 17, 10, 3, 4, 500000⟩ (by decide) (by decide)

/- ---------------- C7 ---------------- -/

theorem natCmp_swap (a b : Nat) : compare a b = (compare b a).swap := by
  rcases Nat.lt_trichotomy a b with h | h | h
  · rw [Nat.compare_eq_lt.mpr h, Nat.compare_eq_gt.mpr h]
    rfl
  · subst h
    rw [Nat.compare_eq_eq.mpr rfl]
    rfl
  · rw [Nat.compare_eq_gt.mpr h, Nat.compare_eq_lt.mpr h]
    rfl

theorem ordSwap_then (a b : Ordering) :
    (a.then b).swap = a.swap.then b.swap := by
  cases a <;> rfl

theorem lexCmp_swap (a b : List Char) : lexCmp a b = (lexCmp b a).swap := by
  induction a generalizing b with
  | nil => cases b <;> rfl
  | cons x xs ih =>
    cases b with
    | nil => rfl
    | cons y ys =>
      rw [lexCmp_cons, lexCmp_cons, ordSwap_then, ← natCmp_swap, ih ys]

theorem lexCmp_le_trans (a : List Char) :
    ∀ b c : List Char,
      lexCmp a b ≠ .gt → lexCmp b c ≠ .gt → lexCmp a c ≠ .gt := by
  induction a with
  | nil =>
    intro b c _ _
    cases c <;> simp [lexCmp]
  | cons x xs ih =>
    intro b c h1 h2
    cases b with
    | nil => exact absurd rfl h1
    | cons y ys =>
      cases c with
      | nil => exact absurd rfl h2
      | cons z zs =>
        rw [lexCmp_cons] at h1 h2 ⊢
        rcases hxy : compare x.toNat y.toNat with _ | _ | _ <;> rw [hxy] at h1
        · rcases hyz : compare y.toNat z.toNat with _ | _ | _ <;>
            rw [hyz] at h2
          · have g1 := Nat.compare_eq_lt.mp hxy
            have g2 := Nat.compare_eq_lt.mp hyz
            rw [Nat.compare_eq_lt.mpr (by omega : x.toNat < z.toNat)]
            simp [Ordering.then]
          · have g1 := Nat.compare_eq_lt.mp hxy
            have g2 := Nat.compare_eq_eq.mp hyz
            rw [Nat.compare_eq_lt.mpr (by omega : x.toNat < z.toNat)]
            simp [Ordering.then]
          · exact absurd rfl h2
        · rw [ordEq_then] at h1
          have g1 := Nat.compare_eq_eq.mp hxy
          rcases hyz : compare y.toNat z.toNat with _ | _ | _ <;>
            rw [hyz] at h2
          · have g2 := Nat.compare_eq_lt.mp hyz
            rw [Nat.compare_eq_lt.mpr (by omega : x.toNat < z.toNat)]
            simp [Ordering.then]
          · rw [ordEq_then] at h2
            have g2 := Nat.compare_eq_eq.mp hyz
            rw [Nat.compare_eq_eq.mpr (by omega : x.toNat = z.toNat), ordEq_then]
            exact ih ys zs h1 h2
          · exact absurd rfl h2
        · exact absurd rfl h1

theorem pyStrLe_iff (s t : String) :
    pyStrLe s t = true ↔ lexCmp s.data t.data ≠ .gt := by
  unfold pyStrLe
  cases h : lexCmp s.data t.data <;> simp

theorem pyStrLe_total (s t : String) :
    (pyStrLe s t || pyStrLe t s) = true := by
  unfold pyStrLe
  cases h : lexCmp t.data s.data <;>
    rw [lexCmp_swap s.data t.data, h] <;> rfl

/-- Transitivity of the descending sort key used by `fetch_recent_news`. -/
theorem newsLe_trans (a b c : NewsItem)
    (h1 : pyStrLe b.published_at a.published_at = true)
    (h2 : pyStrLe c.published_at b.published_at = true) :
    pyStrLe c.published_at a.published_at = true := by
  rw [pyStrLe_iff] at h1 h2 ⊢
  exact lexCmp_le_trans _ _ _ h2 h1

/-- Totality of the descending sort key used by `fetch_recent_news`. -/
theorem newsLe_total (a b : NewsItem) :
    (pyStrLe b.published_at a.published_at ||
      pyStrLe a.published_at b.published_at) = true :=
  pyStrLe_total _ _

/-- C7: the output of `fetch_recent_news` is sorted descending by the
`published_at` key (Python string order), its length never exceeds
`max(0, top_k)`, and a non-positive `top_k` yields the empty sequence. -/
theorem fetch_sorted_truncated (raw : List RawRecord)
    (now lookback top_k : Int) :
    List.Sorted
      (fun a b : NewsItem => pyStrLe b.published_at a.published_at = true)
      (fetch_recent_news raw now lookback top_k) ∧
    (fetch_recent_news raw now lookback top_k).length ≤ (max 0 top_k).toNat ∧
    (top_k ≤ 0 → fetch_recent_news raw now lookback top_k = []) := by
  refine ⟨?_, ?_, ?_⟩
  · unfold fetch_recent_news
    exact List.Pairwise.sublist (List.take_sublist _ _)
      (List.sorted_mergeSort newsLe_trans newsLe_total _)
  · unfold fetch_recent_news
    exact List.length_take_le _ _
  · intro h
    unfold fetch_recent_news
    rw [max_eq_left h]
    rfl

/-- Witness for C7: `top_k = 0` yields the empty sequence. -/
theorem fetch_sorted_truncated_witness :
    fetch_recent_news [] 0 7 0 = [] :=
  (fetch_sorted_truncated [] 0 7 0).2.2 (by norm_num)

/- ---------------- C9 ---------------- -/

theorem pyIsoformat_ne_empty (t : PyDateTime) : pyIsoformat t ≠ "" := by
  intro hc
  have h2 : isoChars t = [] := congrArg String.data hc
  have h3 := congrArg List.length h2
  simp [isoChars, padNum_length] at h3

/-- Any record the filter keeps carries a parsed timestamp, so the
constructed item's `published_at` is the (never-empty) ISO rendering. -/
theorem processRecord_published (now lookback : Int) (n : RawRecord)
    (it : NewsItem) (h : processRecord now lookback n = some it) :
    it.published_at ≠ "" := by
  simp only [processRecord] at h
  split at h
  · exact Option.noConfusion h
  · split at h
    · exact Option.noConfusion h
    · next hw =>
      have hd : ∃ d : Int, _extract_published_dt n = some d := by
        cases hdt : _extract_published_dt n with
        | none =>
          rw [hdt] at hw
          simp [_within_lookback] at hw
        | some d => exact ⟨d, rfl⟩
      obtain ⟨d, hd⟩ := hd
      injection h with h
      rw [← h]
      simp only [hd]
      exact pyIsoformat_ne_empty (fromtimestampUtc d)

/-- C9: every `NewsItem` in the output of `fetch_recent_news` has a
non-empty `published_at` string, although the `NewsItem` type itself
permits an empty one: records without a parsed timestamp are discarded by
the recency filter before construction. -/
theorem fetch_published_nonempty (raw : List RawRecord)
    (now lookback top_k : Int) :
    ∀ it ∈ fetch_recent_news raw now lookback top_k,
      it.published_at ≠ "" := by
  intro it hit
  unfold fetch_recent_news at hit
  have h1 := (List.take_sublist _ _).subset hit
  have h2 := (List.mergeSort_perm
    (raw.filterMap (processRecord now lookback))
    (fun a b => pyStrLe b.published_at a.published_at)).subset h1
  obtain ⟨n, _, hps⟩ := List.mem_filterMap.mp h2
  exact processRecord_published now lookback n it hps

/-- Witness for C9: a concrete fetched item carries a non-empty ISO
timestamp. -/
theorem fetch_published_nonempty_witness :
    (⟨"t", "l", none, "1970-01-01T00:00:00+00:00", []⟩ : NewsItem).published_at ≠
      "" := by
  apply fetch_published_nonempty
    [⟨some "t", some "l", none, some 0, none, none, none⟩] 0 0 5
    ⟨"t", "l", none, "1970-01-01T00:00:00+00:00", []⟩
  unfold fetch_recent_news
  rw [List.take_of_length_le (by rw [List.length_mergeSort]; decide)]
  exact (List.mergeSort_perm _ _).symm.subset (by decide)
